import Mathlib

/-!
Verification of the `Input::GameController` core of `src/input/controller.cpp`
(shadPS4): a fixed-capacity ring of timestamped controller-state samples with
per-slot consumption flags, mutators (`CheckButton`, `Axis`,
`SetTouchpadState`), readers (`ReadState`, `ReadStates`), and the heartbeat
tick (`Poll`).  Machine integers are modelled as `Nat`/`Int` with explicit
`% 2^w` where wraparound matters; the C arrays are modelled as total functions
updated pointwise; `sceKernelGetProcessTime()` is passed in as a `now`
parameter.
-/

namespace Input

/-- Modelled from the spec: the ring capacity `C` (declared as `MAX_STATES` in
`controller.h`, which is not among the sources; the spec fixes it at 64). -/
def MAX_STATES : Nat := 64

/-- The modulus `2 ^ 32` of `u32` arithmetic. -/
def U32 : Nat := 4294967296

/-- The modulus `2 ^ 64` of `u64` arithmetic. -/
def U64 : Nat := 18446744073709551616

/-- Unsigned 64-bit subtraction `a - b`, with wraparound. -/
def u64sub (a b : Nat) : Nat := (a % U64 + (U64 - b % U64)) % U64

/-- Bitwise complement `~b` at `u32` width. -/
def not32 (b : Nat) : Nat := (U32 - 1) ^^^ (b % U32)

/-- The cast `static_cast<u16>` applied to the float products `x * 1920` / `y * 941`;
float arithmetic is modelled as exact rational arithmetic truncated to an
integer. -/
def u16cast (q : ℚ) : Nat := (Int.toNat ⌊q⌋) % 65536

/-- Modelled from the spec: `OrbisPadButtonDataOffset::L2` (`pad.h` is not
among the sources; the spec requires a dedicated single digital bit for the
left trigger). -/
def L2 : Nat := 256

/-- Modelled from the spec: `OrbisPadButtonDataOffset::R2`, the digital
right-trigger bit. -/
def R2 : Nat := 512

/-- One touchpad slot: `{ bool state; u16 x; u16 y; }`. -/
structure TouchpadEntry where
  state : Bool
  x : Nat
  y : Nat
deriving DecidableEq

/-- Modelled from the spec plus the uses in `controller.cpp`: the `State`
value type of `controller.h` — timestamp, button bit-field, analog axes and
two touch slots (the two C arrays are modelled as functions). -/
structure State where
  time : Nat
  buttonsState : Nat
  axes : Nat → Int
  touchpad : Nat → TouchpadEntry

/-- The neutral default-constructed `State()`. -/
def State.default : State :=
  ⟨0, 0, fun _ => 0, fun _ => ⟨false, 0, 0⟩⟩

/-- The analog channels (`Input::Axis` of the headers, modelled from the
spec); `TriggerLeft`/`TriggerRight` are the two channels with a secondary
digital effect. -/
inductive Axis where
  | LeftX
  | LeftY
  | RightX
  | RightY
  | TriggerLeft
  | TriggerRight
deriving DecidableEq

/-- The cast `static_cast<int>(axis)`. -/
def Axis.toId : Axis → Nat
  | .LeftX => 0
  | .LeftY => 1
  | .RightX => 2
  | .RightY => 3
  | .TriggerLeft => 4
  | .TriggerRight => 5

/-- The fields of `GameController` that `controller.cpp` touches.  The mutex
is not part of the data model (see the lock-event model below); the SDL handle
and the actuation passthroughs carry no core state. -/
structure GameController where
  m_states_num : Nat
  m_first_state : Nat
  m_states : Nat → State
  m_private : Nat → Bool
  m_last_state : State
  m_connected : Bool
  m_connected_count : Int

/-- Constructor `GameController::GameController()` (lines 19–22); the remaining fields
start from their in-class initializers (modelled from the spec: head `0`,
consumption flags clear, disconnected). -/
def GameController.init : GameController :=
  { m_states_num := 0
    m_first_state := 0
    m_states := fun _ => State.default
    m_private := fun _ => false
    m_last_state := State.default
    m_connected := false
    m_connected_count := 0 }

/-- Source `GameController::GetLastState` (lines 63–69). -/
def GameController.GetLastState (gc : GameController) : State :=
  if gc.m_states_num = 0 then
    gc.m_last_state
  else
    gc.m_states ((gc.m_first_state + gc.m_states_num - 1) % MAX_STATES)

/-- Source `GameController::AddState` (lines 71–82). -/
def GameController.AddState (gc : GameController) (state : State) : GameController :=
  let gc1 :=
    if MAX_STATES ≤ gc.m_states_num then
      { gc with
        m_states_num := MAX_STATES - 1
        m_first_state := (gc.m_first_state + 1) % MAX_STATES }
    else gc
  let index := (gc1.m_first_state + gc1.m_states_num) % MAX_STATES
  { gc1 with
    m_states := fun j => if j = index then state else gc1.m_states j
    m_private := fun j => if j = index then false else gc1.m_private j
    m_last_state := state
    m_states_num := gc1.m_states_num + 1 }

/-- The out-parameters of `GameController::ReadState`. -/
structure ReadStateResult where
  state : State
  isConnected : Bool
  connectedCount : Int

/-- Source `GameController::ReadState` (lines 24–30). -/
def GameController.ReadState (gc : GameController) : ReadStateResult :=
  ⟨gc.GetLastState, gc.m_connected, gc.m_connected_count⟩

/-- Result of `GameController::ReadStates`: the controller after the call, the
entries written to `states` (whose length is the returned `ret_num`), and the
out-parameters. -/
structure ReadStatesResult where
  gc : GameController
  states : List State
  isConnected : Bool
  connectedCount : Int

/-- The `for` loop of `ReadStates` (lines 46–56), as structural recursion over
the list of loop indices; `priv` and `out` thread `m_private` and the entries
written so far, and the `break` returns early. -/
def readLoop (gc : GameController) (states_num : Int) :
    List Nat → (Nat → Bool) → List State → (Nat → Bool) × List State
  | [], priv, out => (priv, out)
  | i :: rest, priv, out =>
    if (out.length : Int) < states_num then
      let index := (gc.m_first_state + i) % MAX_STATES
      if priv index = false then
        readLoop gc states_num rest (fun j => if j = index then true else priv j)
          (out ++ [gc.m_states index])
      else
        readLoop gc states_num rest priv out
    else
      (priv, out)

/-- Source `GameController::ReadStates` (lines 32–61). -/
def GameController.ReadStates (gc : GameController) (states_num : Int) :
    ReadStatesResult :=
  if gc.m_connected then
    if gc.m_states_num = 0 then
      ⟨gc, [gc.m_last_state], gc.m_connected, gc.m_connected_count⟩
    else
      let r := readLoop gc states_num (List.range gc.m_states_num) gc.m_private []
      ⟨{ gc with m_private := r.1 }, r.2, gc.m_connected, gc.m_connected_count⟩
  else
    ⟨gc, [], gc.m_connected, gc.m_connected_count⟩

/-- Source `GameController::CheckButton` (lines 84–95); `now` stands for
`sceKernelGetProcessTime()`. -/
def GameController.CheckButton (gc : GameController) (id : Int) (button : Nat)
    (is_pressed : Bool) (now : Nat) : GameController :=
  let state := gc.GetLastState
  let state := { state with time := now }
  let state :=
    if is_pressed then
      { state with buttonsState := state.buttonsState ||| button }
    else
      { state with buttonsState := state.buttonsState &&& not32 button }
  gc.AddState state

/-- Source `GameController::Axis` (lines 97–124). -/
def GameController.Axis (gc : GameController) (id : Int) (axis : Input.Axis)
    (value : Int) (now : Nat) : GameController :=
  let state := gc.GetLastState
  let state := { state with time := now }
  let axis_id := axis.toId
  let state := { state with axes := fun j => if j = axis_id then value else state.axes j }
  let state :=
    if axis = Input.Axis.TriggerLeft then
      if 0 < value then
        { state with buttonsState := state.buttonsState ||| L2 }
      else
        { state with buttonsState := state.buttonsState &&& not32 L2 }
    else state
  let state :=
    if axis = Input.Axis.TriggerRight then
      if 0 < value then
        { state with buttonsState := state.buttonsState ||| R2 }
      else
        { state with buttonsState := state.buttonsState &&& not32 R2 }
    else state
  gc.AddState state

/-- Source `GameController::SetTouchpadState` (lines 140–152).  The guard is only
`touchIndex < 2`, so a negative `touchIndex` reaches
`state.touchpad[touchIndex]`, an out-of-bounds write into the two-element
array — undefined behaviour, modelled as `none`. -/
def GameController.SetTouchpadState (gc : GameController) (touchIndex : Int)
    (touchDown : Bool) (x y : ℚ) (now : Nat) : Option GameController :=
  if touchIndex < 2 then
    if 0 ≤ touchIndex then
      let idx := touchIndex.toNat
      let state := gc.GetLastState
      let state := { state with time := now }
      let state :=
        { state with
          touchpad := fun j =>
            if j = idx then ⟨touchDown, u16cast (x * 1920), u16cast (y * 941)⟩
            else state.touchpad j }
      some (gc.AddState state)
    else
      none
  else
    some gc

/-- Source `GameController::Poll` (lines 165–182); `now` stands for
`sceKernelGetProcessTime()`.  In `(m_first_state - 1 + m_states_num)` the
`- 1` is `u32` arithmetic, so it wraps.  Returns the controller after the
tick together with the function's return value `100`. -/
def GameController.Poll (gc : GameController) (now : Nat) : GameController × Nat :=
  if gc.m_connected then
    if gc.m_states_num = 0 then
      let diff := u64sub now gc.m_last_state.time / 1000
      if 100 ≤ diff then (gc.AddState gc.GetLastState, 100) else (gc, 100)
    else
      let index := ((gc.m_first_state + (U32 - 1) + gc.m_states_num) % U32) % MAX_STATES
      let diff := u64sub now (gc.m_states index).time / 1000
      if gc.m_private index = true ∧ 100 ≤ diff then
        (gc.AddState gc.GetLastState, 100)
      else
        (gc, 100)
  else
    (gc, 100)

/-- The buffered samples in logical order, oldest first: positions
`head .. head + count - 1` modulo the capacity. -/
def buffered (gc : GameController) : List State :=
  (List.range gc.m_states_num).map
    (fun i => gc.m_states ((gc.m_first_state + i) % MAX_STATES))

/-- Push a whole list of samples, in order. -/
def pushAll (gc : GameController) (l : List State) : GameController :=
  l.foldl GameController.AddState gc

/-- The operations of the controller core, for invariants quantified over
every operation. -/
inductive Op where
  | checkButton (id : Int) (button : Nat) (is_pressed : Bool) (now : Nat)
  | axis (id : Int) (a : Input.Axis) (value : Int) (now : Nat)
  | setTouchpad (touchIndex : Int) (touchDown : Bool) (x y : ℚ) (now : Nat)
  | readState
  | readStates (states_num : Int)
  | poll (now : Nat)
  | addState (s : State)

/-- The state transition of one operation; the readers return the controller
they leave behind, and the undefined-behaviour branch of `setTouchpad` is left
as a stutter (the invariants concern defined executions). -/
def Op.step (op : Op) (gc : GameController) : GameController :=
  match op with
  | .checkButton id b p now => gc.CheckButton id b p now
  | .axis id a v now => gc.Axis id a v now
  | .setTouchpad i d x y now => (gc.SetTouchpadState i d x y now).getD gc
  | .readState => gc
  | .readStates n => (gc.ReadStates n).gc
  | .poll now => (gc.Poll now).1
  | .addState s => gc.AddState s

/-- The invariant of the cached sample: whenever the ring is non-empty, the
most recently pushed sample (what `GetLastState` reads out of the ring) equals
`m_last_state`. -/
def LastInv (gc : GameController) : Prop :=
  0 < gc.m_states_num → gc.GetLastState = gc.m_last_state

/-- The shared fields of the mutual-exclusion unit: ring, cached sample,
connection bookkeeping. -/
inductive CtrlField where
  | connected
  | connectedCount
  | statesNum
  | firstState
  | statesArr
  | privArr
  | lastState
deriving DecidableEq

/-- Lock events and shared-field accesses of one operation, in program
order. -/
inductive LockEv where
  | lock
  | unlock
  | access (f : CtrlField)

/-- Shared-field accesses performed by `GetLastState` (lines 63–69). -/
def getLastStateEvents : List LockEv :=
  [.access .statesNum, .access .lastState, .access .firstState, .access .statesArr]

/-- Shared-field accesses performed by `AddState` (lines 71–82). -/
def addStateEvents : List LockEv :=
  [.access .statesNum, .access .firstState, .access .statesArr,
   .access .lastState, .access .privArr]

/-- Events of `ReadState` (lines 24–30): `scoped_lock` first, then the reads. -/
def readStateEvents : List LockEv :=
  [.lock, .access .connected, .access .connectedCount] ++ getLastStateEvents ++ [.unlock]

/-- Events of `ReadStates` (lines 32–61): `scoped_lock` first, then the reads and the
flag writes. -/
def readStatesEvents : List LockEv :=
  [.lock, .access .connected, .access .connectedCount, .access .statesNum,
   .access .lastState, .access .firstState, .access .privArr, .access .statesArr,
   .unlock]

/-- Events of `CheckButton` (lines 84–95): `scoped_lock`, read the latest state, push. -/
def checkButtonEvents : List LockEv :=
  [.lock] ++ getLastStateEvents ++ addStateEvents ++ [.unlock]

/-- Events of `Axis` (lines 97–124): `scoped_lock`, read the latest state, push. -/
def axisEvents : List LockEv :=
  [.lock] ++ getLastStateEvents ++ addStateEvents ++ [.unlock]

/-- Events of `SetTouchpadState` (lines 140–152), in-range branch: `scoped_lock`, read
the latest state, push. -/
def setTouchpadEvents : List LockEv :=
  [.lock] ++ getLastStateEvents ++ addStateEvents ++ [.unlock]

/-- Events of `Poll` (lines 165–182): there is no `scoped_lock` anywhere in the
function, yet it reads the connection flag, the ring bookkeeping, the sample
and flag arrays, and (on the heartbeat branches) calls `AddState`. -/
def pollEvents : List LockEv :=
  [.access .connected, .access .statesNum, .access .lastState,
   .access .firstState, .access .statesArr, .access .privArr] ++
    getLastStateEvents ++ addStateEvents

/-- Scans an event list keeping the lock depth; every `access` must happen at
positive depth. -/
def lockedFrom : Nat → List LockEv → Bool
  | _, [] => true
  | d, LockEv.lock :: es => lockedFrom (d + 1) es
  | d, LockEv.unlock :: es => lockedFrom (d - 1) es
  | d, LockEv.access _ :: es => decide (0 < d) && lockedFrom d es

/-- All shared-field accesses of an operation happen under the lock. -/
def allAccessesLocked (es : List LockEv) : Bool := lockedFrom 0 es

/-- A connected controller in its start state (connection handling lives
outside `controller.cpp`; only the flag value matters here). -/
def gcConn : GameController := { GameController.init with m_connected := true }

/-- A concrete sample distinct from the neutral state. -/
def sOne : State := { State.default with time := 5 }

/-- The state `gcConn` after one push. -/
def gcPushed : GameController := gcConn.AddState sOne

/-- The state `gcPushed` after a full drain: the ring still holds one sample, whose
consumption flag is set. -/
def gcC1 : GameController := (gcPushed.ReadStates 64).gc

/-- A sample carrying `n` as its timestamp. -/
def sT (n : Nat) : State := { State.default with time := n }

/-- The initial controller after pushing `MAX_STATES` distinct samples: a full
ring. -/
def gcFull : GameController :=
  pushAll GameController.init ((List.range 64).map sT)

/-! ### Basic facts about `AddState` -/

theorem AddState_m_last_state (gc : GameController) (s : State) :
    (gc.AddState s).m_last_state = s := rfl

theorem AddState_m_states_num (gc : GameController) (s : State) :
    (gc.AddState s).m_states_num =
      if MAX_STATES ≤ gc.m_states_num then MAX_STATES else gc.m_states_num + 1 := by
  by_cases h : (64 : Nat) ≤ gc.m_states_num <;>
    simp [GameController.AddState, MAX_STATES, h]

theorem AddState_m_states_num_le (gc : GameController) (s : State) :
    (gc.AddState s).m_states_num ≤ MAX_STATES := by
  rw [AddState_m_states_num]
  split <;> omega

theorem AddState_m_states_num_pos (gc : GameController) (s : State) :
    0 < (gc.AddState s).m_states_num := by
  rw [AddState_m_states_num]
  simp only [MAX_STATES]
  split <;> omega

theorem AddState_eq_of_lt (gc : GameController) (s : State)
    (h : gc.m_states_num < MAX_STATES) :
    gc.AddState s =
      { gc with
        m_states := fun j =>
          if j = (gc.m_first_state + gc.m_states_num) % MAX_STATES then s
          else gc.m_states j
        m_private := fun j =>
          if j = (gc.m_first_state + gc.m_states_num) % MAX_STATES then false
          else gc.m_private j
        m_last_state := s
        m_states_num := gc.m_states_num + 1 } := by
  unfold GameController.AddState
  rw [if_neg (by omega)]

theorem AddState_eq_of_full (gc : GameController) (s : State)
    (h : MAX_STATES ≤ gc.m_states_num) :
    gc.AddState s =
      { gc with
        m_first_state := (gc.m_first_state + 1) % MAX_STATES
        m_states := fun j =>
          if j = ((gc.m_first_state + 1) % MAX_STATES + (MAX_STATES - 1)) % MAX_STATES
          then s else gc.m_states j
        m_private := fun j =>
          if j = ((gc.m_first_state + 1) % MAX_STATES + (MAX_STATES - 1)) % MAX_STATES
          then false else gc.m_private j
        m_last_state := s
        m_states_num := MAX_STATES - 1 + 1 } := by
  unfold GameController.AddState
  rw [if_pos h]

theorem GetLastState_AddState (gc : GameController) (s : State) :
    (gc.AddState s).GetLastState = s := by
  by_cases h : MAX_STATES ≤ gc.m_states_num
  · rw [AddState_eq_of_full gc s h]
    unfold GameController.GetLastState
    simp only [MAX_STATES]
    norm_num
  · rw [AddState_eq_of_lt gc s (by omega)]
    unfold GameController.GetLastState
    simp only [MAX_STATES]
    rw [if_neg (by omega)]
    rw [show (gc.m_first_state + (gc.m_states_num + 1) - 1) % 64
          = (gc.m_first_state + gc.m_states_num) % 64 from by omega]
    simp

/-! ### Facts about the drain loop and `ReadStates` -/

theorem readLoop_priv_mono (gc : GameController) (n : Int) (is : List Nat) :
    ∀ (priv : Nat → Bool) (out : List State) (j : Nat),
      priv j = true → (readLoop gc n is priv out).1 j = true := by
  induction is with
  | nil => intro priv out j h; simpa [readLoop] using h
  | cons i rest ih =>
    intro priv out j h
    unfold readLoop
    by_cases hb : (out.length : Int) < n
    · rw [if_pos hb]
      dsimp only
      by_cases hp : priv ((gc.m_first_state + i) % MAX_STATES) = false
      · rw [if_pos hp]
        refine ih _ _ j ?_
        by_cases hj : j = (gc.m_first_state + i) % MAX_STATES <;> simp [hj, h]
      · rw [if_neg hp]
        exact ih _ _ j h
    · rw [if_neg hb]
      exact h

theorem readLoop_of_all_obtained (gc : GameController) (n : Int) (is : List Nat) :
    ∀ (priv : Nat → Bool) (out : List State),
      (∀ i ∈ is, priv ((gc.m_first_state + i) % MAX_STATES) = true) →
      readLoop gc n is priv out = (priv, out) := by
  induction is with
  | nil => intro priv out _; rfl
  | cons i rest ih =>
    intro priv out h
    unfold readLoop
    by_cases hb : (out.length : Int) < n
    · rw [if_pos hb]
      dsimp only
      rw [if_neg (by simp [h i (List.mem_cons_self i rest)])]
      exact ih priv out (fun i' hi' => h i' (List.mem_cons_of_mem _ hi'))
    · rw [if_neg hb]

theorem readLoop_marks (gc : GameController) (n : Int) (is : List Nat) :
    ∀ (priv : Nat → Bool) (out : List State),
      ((out.length + is.length : Nat) : Int) ≤ n →
      ∀ i ∈ is, (readLoop gc n is priv out).1 ((gc.m_first_state + i) % MAX_STATES) = true := by
  induction is with
  | nil => intro priv out _ i hi; simp at hi
  | cons i rest ih =>
    intro priv out hlen i' hi'
    have hb : (out.length : Int) < n := by
      push_cast at hlen ⊢
      simp only [List.length_cons] at hlen
      omega
    unfold readLoop
    rw [if_pos hb]
    dsimp only
    by_cases hp : priv ((gc.m_first_state + i) % MAX_STATES) = false
    · rw [if_pos hp]
      rcases List.mem_cons.mp hi' with rfl | hmem
      · exact readLoop_priv_mono gc n rest _ _ _ (by simp)
      · refine ih _ _ ?_ i' hmem
        simp only [List.length_append, List.length_cons, List.length_nil,
          List.length_singleton] at hlen ⊢
        push_cast at hlen ⊢
        omega
    · rw [if_neg hp]
      rcases List.mem_cons.mp hi' with rfl | hmem
      · exact readLoop_priv_mono gc n rest _ _ _ (by simpa using hp)
      · refine ih _ _ ?_ i' hmem
        simp only [List.length_cons] at hlen
        push_cast at hlen ⊢
        omega

theorem readLoop_out_mem (gc : GameController) (n : Int) (is : List Nat) :
    ∀ (priv : Nat → Bool) (out : List State),
      ∀ s ∈ (readLoop gc n is priv out).2,
        s ∈ out ∨ ∃ j, s = gc.m_states j ∧ priv j = false ∧
          (readLoop gc n is priv out).1 j = true := by
  induction is with
  | nil => intro priv out s hs; exact Or.inl (by simpa [readLoop] using hs)
  | cons i rest ih =>
    intro priv out s hs
    unfold readLoop at hs ⊢
    by_cases hb : (out.length : Int) < n
    · rw [if_pos hb] at hs ⊢
      dsimp only at hs ⊢
      by_cases hp : priv ((gc.m_first_state + i) % MAX_STATES) = false
      · rw [if_pos hp] at hs ⊢
        rcases ih _ _ s hs with hmem | ⟨j, hj, hpj, hres⟩
        · rcases List.mem_append.mp hmem with h1 | h2
          · exact Or.inl h1
          · right
            refine ⟨(gc.m_first_state + i) % MAX_STATES, by simpa using h2, hp, ?_⟩
            exact readLoop_priv_mono gc n rest _ _ _ (by simp)
        · right
          refine ⟨j, hj, ?_, hres⟩
          by_cases hj' : j = (gc.m_first_state + i) % MAX_STATES
          · rw [hj'] at hpj; simp at hpj
          · simpa [hj'] using hpj
      · rw [if_neg hp] at hs ⊢
        exact ih _ _ s hs
    · rw [if_neg hb] at hs ⊢
      exact Or.inl hs

theorem ReadStates_frame_fields (gc : GameController) (n : Int) :
    (gc.ReadStates n).gc.m_states_num = gc.m_states_num ∧
    (gc.ReadStates n).gc.m_first_state = gc.m_first_state ∧
    (gc.ReadStates n).gc.m_states = gc.m_states ∧
    (gc.ReadStates n).gc.m_last_state = gc.m_last_state ∧
    (gc.ReadStates n).gc.m_connected = gc.m_connected ∧
    (gc.ReadStates n).gc.m_connected_count = gc.m_connected_count := by
  unfold GameController.ReadStates
  by_cases hc : gc.m_connected <;> by_cases h0 : gc.m_states_num = 0 <;>
    simp [hc, h0]

theorem ReadStates_gc_frame (gc : GameController) (n : Int) :
    (gc.ReadStates n).gc = { gc with m_private := (gc.ReadStates n).gc.m_private } := by
  unfold GameController.ReadStates
  by_cases hc : gc.m_connected = true
  · by_cases h0 : gc.m_states_num = 0
    · rw [if_pos hc, if_pos h0]
    · rw [if_pos hc, if_neg h0]
  · rw [if_neg hc]

theorem GetLastState_ReadStates (gc : GameController) (n : Int) :
    (gc.ReadStates n).gc.GetLastState = gc.GetLastState := by
  have h := ReadStates_frame_fields gc n
  unfold GameController.GetLastState
  rw [h.1, h.2.1, h.2.2.1, h.2.2.2.1]

theorem ReadStates_of_empty (gc : GameController) (n : Int)
    (hc : gc.m_connected = true) (h0 : gc.m_states_num = 0) :
    gc.ReadStates n = ⟨gc, [gc.m_last_state], gc.m_connected, gc.m_connected_count⟩ := by
  unfold GameController.ReadStates
  rw [if_pos hc, if_pos h0]

theorem ReadStates_of_all_obtained (gc : GameController) (n : Int)
    (h0 : gc.m_states_num ≠ 0)
    (hall : ∀ i < gc.m_states_num,
      gc.m_private ((gc.m_first_state + i) % MAX_STATES) = true) :
    gc.ReadStates n = ⟨gc, [], gc.m_connected, gc.m_connected_count⟩ := by
  unfold GameController.ReadStates
  by_cases hc : gc.m_connected = true
  · rw [if_pos hc, if_neg h0,
      readLoop_of_all_obtained gc n _ _ _ (fun i hi => hall i (List.mem_range.mp hi))]
  · rw [if_neg hc]

theorem ReadStates_marks_all (gc : GameController) (n : Int)
    (hc : gc.m_connected = true) (h0 : gc.m_states_num ≠ 0)
    (hcap : (gc.m_states_num : Int) ≤ n) :
    ∀ i < gc.m_states_num,
      (gc.ReadStates n).gc.m_private ((gc.m_first_state + i) % MAX_STATES) = true := by
  intro i hi
  unfold GameController.ReadStates
  rw [if_pos (by simp [hc]), if_neg h0]
  dsimp only
  exact readLoop_marks gc n (List.range gc.m_states_num) gc.m_private []
    (by simpa using hcap) i (List.mem_range.mpr hi)

/-! ### The ring content across pushes -/

theorem buffered_length (gc : GameController) :
    (buffered gc).length = gc.m_states_num := by
  simp [buffered]

theorem buffered_AddState_of_lt (gc : GameController) (s : State)
    (h : gc.m_states_num < MAX_STATES) :
    buffered (gc.AddState s) = buffered gc ++ [s] := by
  rw [AddState_eq_of_lt gc s h]
  unfold buffered
  dsimp only
  rw [List.range_succ, List.map_append]
  congr 1
  · refine List.map_congr_left ?_
    intro i hi
    have hi' := List.mem_range.mp hi
    rw [if_neg ?_]
    simp only [MAX_STATES] at *
    omega
  · simp

theorem buffered_tail (gc : GameController) (h : gc.m_states_num = MAX_STATES) :
    (buffered gc).tail =
      (List.range 63).map
        (fun i => gc.m_states ((gc.m_first_state + 1 + i) % MAX_STATES)) := by
  unfold buffered
  rw [h]
  simp only [MAX_STATES]
  rw [show List.range 64 = 0 :: List.map Nat.succ (List.range 63) from
      by rw [show (64 : Nat) = 63 + 1 from rfl, List.range_succ_eq_map]]
  rw [List.map_cons, List.tail_cons, List.map_map]
  refine List.map_congr_left ?_
  intro i hi
  simp only [Function.comp, Nat.succ_eq_add_one]
  congr 1
  omega

theorem buffered_AddState_of_full (gc : GameController) (s : State)
    (h : gc.m_states_num = MAX_STATES) :
    buffered (gc.AddState s) = (buffered gc).tail ++ [s] := by
  rw [AddState_eq_of_full gc s (le_of_eq h.symm), buffered_tail gc h]
  unfold buffered
  dsimp only
  simp only [MAX_STATES]
  norm_num
  rw [show List.range 64 = List.range 63 ++ [63] from
      by rw [show (64 : Nat) = 63 + 1 from rfl, List.range_succ]]
  rw [List.map_append]
  congr 1
  · refine List.map_congr_left ?_
    intro i hi
    have hi' := List.mem_range.mp hi
    rw [if_neg (by omega)]
  · simp

theorem buffered_pushAll (l : List State) :
    ∀ gc : GameController, gc.m_states_num ≤ MAX_STATES →
      buffered (pushAll gc l) =
        (buffered gc ++ l).drop ((buffered gc).length + l.length - MAX_STATES) := by
  induction l with
  | nil =>
    intro gc h
    have hz : (buffered gc).length + ([] : List State).length - MAX_STATES = 0 := by
      rw [buffered_length]
      simp only [List.length_nil, MAX_STATES] at *
      omega
    rw [hz]
    simp [pushAll]
  | cons s l ih =>
    intro gc h
    have hstep : pushAll gc (s :: l) = pushAll (gc.AddState s) l := rfl
    rw [hstep, ih _ (AddState_m_states_num_le gc s)]
    rcases Nat.lt_or_ge gc.m_states_num MAX_STATES with hlt | hge
    · rw [buffered_AddState_of_lt gc s hlt]
      rw [List.append_assoc, List.singleton_append]
      congr 1
      simp only [List.length_append, List.length_cons, List.length_nil]
      omega
    · have heq : gc.m_states_num = MAX_STATES := le_antisymm h hge
      rw [buffered_AddState_of_full gc s heq]
      have hlenB : (buffered gc).length = MAX_STATES := by rw [buffered_length, heq]
      rw [← List.drop_one (buffered gc)]
      rw [List.append_assoc, List.singleton_append,
        List.drop_append_eq_append_drop, List.drop_append_eq_append_drop,
        List.drop_drop]
      congr 2
      · simp only [List.length_append, List.length_drop, List.length_cons,
          List.length_nil, hlenB, MAX_STATES]
        omega
      · simp only [List.length_append, List.length_drop, List.length_cons,
          List.length_nil, hlenB, MAX_STATES]
        omega

theorem buffered_init : buffered GameController.init = [] := by
  simp [buffered, GameController.init]

/-! ### What each mutator does to the latest sample -/

theorem CheckButton_GetLastState (gc : GameController) (id : Int) (button : Nat)
    (is_pressed : Bool) (now : Nat) :
    (gc.CheckButton id button is_pressed now).GetLastState =
      { gc.GetLastState with
        time := now
        buttonsState :=
          if is_pressed then (gc.GetLastState).buttonsState ||| button
          else (gc.GetLastState).buttonsState &&& not32 button } := by
  unfold GameController.CheckButton
  rw [GetLastState_AddState]
  by_cases hp : is_pressed <;> simp [hp]

theorem Axis_GetLastState (gc : GameController) (id : Int) (a : Input.Axis)
    (v : Int) (now : Nat) :
    (gc.Axis id a v now).GetLastState =
      { gc.GetLastState with
        time := now
        axes := fun j => if j = a.toId then v else (gc.GetLastState).axes j
        buttonsState :=
          if a = Input.Axis.TriggerLeft then
            if 0 < v then (gc.GetLastState).buttonsState ||| L2
            else (gc.GetLastState).buttonsState &&& not32 L2
          else if a = Input.Axis.TriggerRight then
            if 0 < v then (gc.GetLastState).buttonsState ||| R2
            else (gc.GetLastState).buttonsState &&& not32 R2
          else (gc.GetLastState).buttonsState } := by
  unfold GameController.Axis
  rw [GetLastState_AddState]
  cases a <;> by_cases hv : 0 < v <;> simp [hv]

theorem SetTouchpadState_GetLastState (gc : GameController) (tIdx : Int)
    (d : Bool) (x y : ℚ) (now : Nat) (h0 : 0 ≤ tIdx) (h2 : tIdx < 2) :
    (gc.SetTouchpadState tIdx d x y now).map GameController.GetLastState =
      some { gc.GetLastState with
             time := now
             touchpad := fun j =>
               if j = tIdx.toNat then ⟨d, u16cast (x * 1920), u16cast (y * 941)⟩
               else (gc.GetLastState).touchpad j } := by
  unfold GameController.SetTouchpadState
  rw [if_pos h2, if_pos h0]
  simp [GetLastState_AddState]

theorem SetTouchpadState_cases (gc : GameController) (tIdx : Int) (d : Bool)
    (x y : ℚ) (now : Nat) :
    gc.SetTouchpadState tIdx d x y now = none ∨
    gc.SetTouchpadState tIdx d x y now = some gc ∨
    ∃ st, gc.SetTouchpadState tIdx d x y now = some (gc.AddState st) := by
  unfold GameController.SetTouchpadState
  by_cases h2 : tIdx < 2
  · rw [if_pos h2]
    by_cases h0 : (0 : Int) ≤ tIdx
    · rw [if_pos h0]
      exact Or.inr (Or.inr ⟨_, rfl⟩)
    · rw [if_neg h0]
      exact Or.inl rfl
  · rw [if_neg h2]
    exact Or.inr (Or.inl rfl)

/-! ### Case analysis of the heartbeat tick -/

theorem Poll_cases (gc : GameController) (now : Nat) :
    (gc.Poll now).1 = gc ∨ (gc.Poll now).1 = gc.AddState gc.GetLastState := by
  unfold GameController.Poll
  by_cases hc : gc.m_connected = true
  · rw [if_pos hc]
    by_cases h0 : gc.m_states_num = 0
    · rw [if_pos h0]
      dsimp only
      split
      · exact Or.inr rfl
      · exact Or.inl rfl
    · rw [if_neg h0]
      dsimp only
      split
      · exact Or.inr rfl
      · exact Or.inl rfl
  · rw [if_neg hc]
    exact Or.inl rfl

theorem Poll_push_of_empty (gc : GameController) (now : Nat)
    (hc : gc.m_connected = true) (h0 : gc.m_states_num = 0)
    (hdiff : 100 ≤ u64sub now gc.m_last_state.time / 1000) :
    (gc.Poll now).1 = gc.AddState gc.GetLastState := by
  unfold GameController.Poll
  rw [if_pos hc, if_pos h0, if_pos hdiff]

theorem Poll_push_of_obtained (gc : GameController) (now : Nat)
    (hc : gc.m_connected = true) (h0 : gc.m_states_num ≠ 0)
    (hpriv : gc.m_private
      (((gc.m_first_state + (U32 - 1) + gc.m_states_num) % U32) % MAX_STATES) = true)
    (hdiff : 100 ≤ u64sub now
      (gc.m_states
        (((gc.m_first_state + (U32 - 1) + gc.m_states_num) % U32) % MAX_STATES)).time
        / 1000) :
    (gc.Poll now).1 = gc.AddState gc.GetLastState := by
  unfold GameController.Poll
  rw [if_pos hc, if_neg h0]
  dsimp only
  rw [if_pos ⟨hpriv, hdiff⟩]

/-! ### The cached-sample invariant -/

theorem LastInv_AddState (gc : GameController) (s : State) :
    LastInv (gc.AddState s) :=
  fun _ => (GetLastState_AddState gc s).trans (AddState_m_last_state gc s).symm

theorem LastInv_step (op : Op) (gc : GameController) (h : LastInv gc) :
    LastInv (op.step gc) := by
  cases op with
  | checkButton id b p now => exact LastInv_AddState gc _
  | axis id a v now => exact LastInv_AddState gc _
  | setTouchpad i d x y now =>
    dsimp only [Op.step]
    rcases SetTouchpadState_cases gc i d x y now with hn | hs | ⟨st, hs⟩
    · rw [hn]; exact h
    · rw [hs]; exact h
    · rw [hs]; exact LastInv_AddState gc st
  | readState => exact h
  | readStates n =>
    dsimp only [Op.step]
    intro hpos
    have hf := ReadStates_frame_fields gc n
    rw [GetLastState_ReadStates, hf.2.2.2.1]
    rw [hf.1] at hpos
    exact h hpos
  | poll now =>
    dsimp only [Op.step]
    rcases Poll_cases gc now with hp | hp <;> rw [hp]
    · exact h
    · exact LastInv_AddState gc _
  | addState s => exact LastInv_AddState gc s

theorem step_num_pos (op : Op) (gc : GameController) (h : 0 < gc.m_states_num) :
    0 < (op.step gc).m_states_num := by
  cases op with
  | checkButton id b p now => exact AddState_m_states_num_pos gc _
  | axis id a v now => exact AddState_m_states_num_pos gc _
  | setTouchpad i d x y now =>
    dsimp only [Op.step]
    rcases SetTouchpadState_cases gc i d x y now with hn | hs | ⟨st, hs⟩
    · rw [hn]; exact h
    · rw [hs]; exact h
    · rw [hs]; exact AddState_m_states_num_pos gc st
  | readState => exact h
  | readStates n =>
    dsimp only [Op.step]
    rw [(ReadStates_frame_fields gc n).1]
    exact h
  | poll now =>
    dsimp only [Op.step]
    rcases Poll_cases gc now with hp | hp <;> rw [hp]
    · exact h
    · exact AddState_m_states_num_pos gc _
  | addState s => exact AddState_m_states_num_pos gc s

/-! ### The claims -/

/-- Claim C1, counterexample: the claim fails on the code.  After the single
sample of `gcPushed` has been drained once (`ReadStates` returned it, and the
state is `gcC1`, still connected with the drained sample buffered), a further
`readBatch` returns zero entries — not one entry equal to the last pushed
sample — because `ReadStates` never removes samples, so the `count == 0` echo
branch is not reached. -/
theorem C1_counterexample :
    gcC1.m_connected = true ∧
    (gcPushed.ReadStates 64).states = [sOne] ∧
    gcC1.m_last_state = sOne ∧
    (gcC1.ReadStates 64).states.length = 0 :=
  ⟨rfl, rfl, rfl, rfl⟩

/-- Claim C1, amended: the one-entry cached-sample echo happens exactly when the
ring count is zero (only before the first push): then every `readBatch` call
on a connected controller returns exactly one entry equal to the cached
last-known sample and leaves the state unchanged, so it keeps doing so until a
push occurs.  Once the ring is non-empty, draining every sample makes every
subsequent `readBatch` return zero entries, again leaving the state
unchanged. -/
theorem C1_amended_thm (gc : GameController) (maxOut : Int)
    (hc : gc.m_connected = true) :
    (gc.m_states_num = 0 →
      (gc.ReadStates maxOut).states = [gc.m_last_state] ∧
      (gc.ReadStates maxOut).gc = gc) ∧
    (0 < gc.m_states_num →
      (∀ i < gc.m_states_num,
        gc.m_private ((gc.m_first_state + i) % MAX_STATES) = true) →
      (gc.ReadStates maxOut).states = [] ∧ (gc.ReadStates maxOut).gc = gc) := by
  constructor
  · intro h0
    rw [ReadStates_of_empty gc maxOut hc h0]
    exact ⟨rfl, rfl⟩
  · intro hpos hall
    rw [ReadStates_of_all_obtained gc maxOut (by omega) hall]
    exact ⟨rfl, rfl⟩

/-- Claim C1, witness for the amended theorem at the concrete drained state
`gcC1`. -/
theorem C1_witness :
    (gcC1.m_connected = true ∧ 0 < gcC1.m_states_num ∧
      ∀ i < gcC1.m_states_num,
        gcC1.m_private ((gcC1.m_first_state + i) % MAX_STATES) = true) ∧
    (gcC1.ReadStates 7).states = [] :=
  ⟨⟨rfl, by decide, by decide⟩,
   ((C1_amended_thm gcC1 7 rfl).2 (by decide) (by decide)).1⟩

/-- Claim C2, counterexample: the claim fails on the code.  `gcConn` is
connected, its ring is empty, and its cached sample has timestamp `0`, so at
`now = 200000` µs the idle threshold has long passed; the next `Poll` does
push a new sample, but the pushed sample's timestamp is `0`, not the current
time — `Poll` pushes `GetLastState()` verbatim and never refreshes the
timestamp. -/
theorem C2_counterexample :
    gcConn.m_connected = true ∧
    gcConn.m_states_num = 0 ∧
    100 ≤ u64sub 200000 gcConn.m_last_state.time / 1000 ∧
    (gcConn.Poll 200000).1.m_states_num = 1 ∧
    ((gcConn.Poll 200000).1.GetLastState).time = 0 ∧
    ((gcConn.Poll 200000).1.GetLastState).time ≠ 200000 :=
  ⟨rfl, rfl, by decide, by decide, rfl, by decide⟩

/-- Claim C2, amended: under the claimed conditions (connected; ring empty and
idle ≥ 100 ms, or ring non-empty with the newest sample already consumed and
idle ≥ 100 ms) the next `Poll` pushes a copy of the latest sample with every
field unchanged — including the timestamp, which is *not* refreshed to the
current time; the button/axis/touch fields are unchanged as claimed. -/
theorem C2_amended_thm (gc : GameController) (now : Nat)
    (hc : gc.m_connected = true) :
    (gc.m_states_num = 0 → 100 ≤ u64sub now gc.m_last_state.time / 1000 →
      (gc.Poll now).1 = gc.AddState gc.GetLastState ∧
      (gc.Poll now).1.GetLastState = gc.GetLastState) ∧
    (gc.m_states_num ≠ 0 →
      gc.m_private
        (((gc.m_first_state + (U32 - 1) + gc.m_states_num) % U32) % MAX_STATES)
        = true →
      100 ≤ u64sub now
        (gc.m_states
          (((gc.m_first_state + (U32 - 1) + gc.m_states_num) % U32) % MAX_STATES)).time
        / 1000 →
      (gc.Poll now).1 = gc.AddState gc.GetLastState ∧
      (gc.Poll now).1.GetLastState = gc.GetLastState) := by
  constructor
  · intro h0 hdiff
    rw [Poll_push_of_empty gc now hc h0 hdiff]
    exact ⟨rfl, GetLastState_AddState gc _⟩
  · intro h0 hpriv hdiff
    rw [Poll_push_of_obtained gc now hc h0 hpriv hdiff]
    exact ⟨rfl, GetLastState_AddState gc _⟩

/-- Claim C2, witness for the amended theorem at the concrete state `gcConn`
with `now = 200000` µs. -/
theorem C2_witness :
    (gcConn.m_connected = true ∧ gcConn.m_states_num = 0 ∧
      100 ≤ u64sub 200000 gcConn.m_last_state.time / 1000) ∧
    (gcConn.Poll 200000).1 = gcConn.AddState gcConn.GetLastState :=
  ⟨⟨rfl, rfl, by decide⟩,
   ((C2_amended_thm gcConn 200000 rfl).1 rfl (by decide)).1⟩

/-- Claim C3 (code bug): the guard of `SetTouchpadState` is only
`touchIndex < 2`, so a negative index is *not* a no-op — it reaches the
out-of-bounds write `state.touchpad[touchIndex]` on the two-element array
(undefined behaviour, modelled as `none`), while an index `≥ 2` genuinely
leaves the controller unchanged. -/
theorem C3_code_behaviour :
    gcConn.SetTouchpadState (-1) true (1 / 2) (1 / 2) 0 = none ∧
    gcConn.SetTouchpadState 2 true (1 / 2) (1 / 2) 0 = some gcConn :=
  ⟨rfl, rfl⟩

/-- Claim C4: after every push the ring count is at most `MAX_STATES`; a push on
a full ring drops exactly the oldest buffered sample and appends the new one;
and pushing any list of samples into the fresh controller leaves exactly the
last `MAX_STATES` of them buffered, in insertion order. -/
theorem C4_ring_bound :
    (∀ (gc : GameController) (s : State),
      (gc.AddState s).m_states_num ≤ MAX_STATES) ∧
    (∀ (gc : GameController) (s : State), gc.m_states_num = MAX_STATES →
      buffered (gc.AddState s) = (buffered gc).tail ++ [s]) ∧
    (∀ l : List State,
      buffered (pushAll GameController.init l) = l.drop (l.length - MAX_STATES)) := by
  refine ⟨AddState_m_states_num_le, fun gc s h => buffered_AddState_of_full gc s h, ?_⟩
  intro l
  have h := buffered_pushAll l GameController.init (by simp [GameController.init])
  simpa [buffered_init] using h

set_option maxRecDepth 40000 in
/-- Claim C4, witness: the concrete full ring `gcFull` (64 pushed samples), plus
one more push, drops exactly the oldest sample. -/
theorem C4_witness :
    gcFull.m_states_num = MAX_STATES ∧
    buffered (gcFull.AddState (sT 99)) = (buffered gcFull).tail ++ [sT 99] :=
  ⟨by decide, C4_ring_bound.2.1 gcFull (sT 99) (by decide)⟩

/-- Claim C5: consumption is one-shot.  Consumed flags only ever go from unset
to set under `ReadStates`; every sample a drain returns (ring non-empty) comes
from a slot whose flag was unset before the call and is set after it; and a
drain whose budget covers the whole ring leaves every later drain returning
zero samples, however large its budget. -/
theorem C5_one_shot :
    (∀ (gc : GameController) (maxOut : Int) (j : Nat),
      gc.m_private j = true → (gc.ReadStates maxOut).gc.m_private j = true) ∧
    (∀ (gc : GameController) (maxOut : Int), gc.m_states_num ≠ 0 →
      ∀ s ∈ (gc.ReadStates maxOut).states,
        ∃ j, s = gc.m_states j ∧ gc.m_private j = false ∧
          (gc.ReadStates maxOut).gc.m_private j = true) ∧
    (∀ (gc : GameController) (maxOut maxOut2 : Int),
      gc.m_connected = true → 0 < gc.m_states_num →
      (gc.m_states_num : Int) ≤ maxOut →
      ((gc.ReadStates maxOut).gc.ReadStates maxOut2).states = []) := by
  refine ⟨?_, ?_, ?_⟩
  · intro gc maxOut j h
    unfold GameController.ReadStates
    by_cases hc : gc.m_connected = true
    · by_cases h0 : gc.m_states_num = 0
      · rw [if_pos hc, if_pos h0]; exact h
      · rw [if_pos hc, if_neg h0]
        dsimp only
        exact readLoop_priv_mono gc maxOut _ _ _ j h
    · rw [if_neg hc]; exact h
  · intro gc maxOut h0 s hs
    unfold GameController.ReadStates at hs ⊢
    by_cases hc : gc.m_connected = true
    · rw [if_pos hc, if_neg h0] at hs ⊢
      dsimp only at hs ⊢
      rcases readLoop_out_mem gc maxOut _ _ _ s hs with hmem | ⟨j, hj, hp, hres⟩
      · simp at hmem
      · exact ⟨j, hj, hp, hres⟩
    · rw [if_neg hc] at hs
      simp at hs
  · intro gc maxOut maxOut2 hc hpos hcap
    have hf := ReadStates_frame_fields gc maxOut
    have hall : ∀ i < (gc.ReadStates maxOut).gc.m_states_num,
        (gc.ReadStates maxOut).gc.m_private
          (((gc.ReadStates maxOut).gc.m_first_state + i) % MAX_STATES) = true := by
      intro i hi
      rw [hf.1] at hi
      rw [hf.2.1]
      exact ReadStates_marks_all gc maxOut hc (by omega) hcap i hi
    have hdone := ReadStates_of_all_obtained (gc.ReadStates maxOut).gc maxOut2
      (by rw [hf.1]; omega) hall
    rw [hdone]

/-- Claim C5, witness: draining the one-sample controller `gcPushed` with budget
64 and draining again returns no sample the second time. -/
theorem C5_witness :
    (gcPushed.m_connected = true ∧ 0 < gcPushed.m_states_num ∧
      (gcPushed.m_states_num : Int) ≤ 64) ∧
    ((gcPushed.ReadStates 64).gc.ReadStates 64).states = [] :=
  ⟨⟨rfl, by decide, by decide⟩,
   C5_one_shot.2.2 gcPushed 64 64 rfl (by decide) (by decide)⟩

/-! ### Bit-level helpers for the trigger bits -/

theorem L2_eq : L2 = 2 ^ 8 := rfl

theorem R2_eq : R2 = 2 ^ 9 := rfl

theorem testBit_not32_two_pow (p k : Nat) (hp : p < 32) :
    (not32 (2 ^ p)).testBit k = (decide (k < 32) && !decide (k = p)) := by
  unfold not32 U32
  have hlt : (2 : Nat) ^ p < 4294967296 := by
    calc (2 : Nat) ^ p < 2 ^ 32 := Nat.pow_lt_pow_right (by norm_num) hp
    _ = 4294967296 := by norm_num
  rw [Nat.mod_eq_of_lt hlt,
    show (4294967296 - 1 : Nat) = 2 ^ 32 - 1 from by norm_num,
    Nat.testBit_xor, Nat.testBit_two_pow_sub_one, Nat.testBit_two_pow]
  by_cases hk : k < 32 <;> by_cases hkp : k = p
  · subst hkp; simp [hk]
  · simp [hk, Ne.symm hkp, hkp]
  · exact absurd (hkp ▸ hp) hk
  · simp [hk, Ne.symm hkp, hkp]

theorem testBit_high_of_lt_u32 (bs k : Nat) (h : bs < U32) (hk : 32 ≤ k) :
    bs.testBit k = false := by
  refine Nat.testBit_eq_false_of_lt ?_
  calc bs < U32 := h
  _ = 2 ^ 32 := by norm_num [U32]
  _ ≤ 2 ^ k := Nat.pow_le_pow_right (by norm_num) hk

/-- Claim C6: every mutator copies the latest sample forward and changes only
its own field (plus the timestamp and the trigger-to-`L2`/`R2` coupling):
`CheckButton` yields the previous latest with only the button bit-field and
timestamp edited; `Axis` yields it with only the addressed channel, the
timestamp, and (for trigger channels) the trigger bit edited; an in-range
`SetTouchpadState` edits only the addressed slot and timestamp; and `setAxis`
followed by `setButton` leaves both the axis value and the button bit set,
with the touch state untouched. -/
theorem C6_copy_forward (gc : GameController) (id id2 : Int) (button : Nat)
    (is_pressed : Bool) (a : Input.Axis) (value : Int) (tIdx : Int)
    (touchDown : Bool) (x y : ℚ) (now now2 : Nat) :
    ((gc.CheckButton id button is_pressed now).GetLastState =
      { gc.GetLastState with
        time := now
        buttonsState :=
          if is_pressed then (gc.GetLastState).buttonsState ||| button
          else (gc.GetLastState).buttonsState &&& not32 button }) ∧
    ((gc.Axis id a value now).GetLastState =
      { gc.GetLastState with
        time := now
        axes := fun j => if j = a.toId then value else (gc.GetLastState).axes j
        buttonsState :=
          if a = Input.Axis.TriggerLeft then
            if 0 < value then (gc.GetLastState).buttonsState ||| L2
            else (gc.GetLastState).buttonsState &&& not32 L2
          else if a = Input.Axis.TriggerRight then
            if 0 < value then (gc.GetLastState).buttonsState ||| R2
            else (gc.GetLastState).buttonsState &&& not32 R2
          else (gc.GetLastState).buttonsState }) ∧
    (0 ≤ tIdx → tIdx < 2 →
      (gc.SetTouchpadState tIdx touchDown x y now).map GameController.GetLastState =
        some { gc.GetLastState with
               time := now
               touchpad := fun j =>
                 if j = tIdx.toNat then
                   ⟨touchDown, u16cast (x * 1920), u16cast (y * 941)⟩
                 else (gc.GetLastState).touchpad j }) ∧
    (((gc.Axis id a value now).CheckButton id2 button true now2).GetLastState.axes a.toId
        = value ∧
     ((gc.Axis id a value now).CheckButton id2 button true now2).GetLastState.buttonsState
        = ((gc.Axis id a value now).GetLastState).buttonsState ||| button ∧
     ((gc.Axis id a value now).CheckButton id2 button true now2).GetLastState.touchpad
        = (gc.GetLastState).touchpad) := by
  refine ⟨CheckButton_GetLastState gc id button is_pressed now,
    Axis_GetLastState gc id a value now,
    fun h0 h2 => SetTouchpadState_GetLastState gc tIdx touchDown x y now h0 h2,
    ?_, ?_, ?_⟩
  · rw [CheckButton_GetLastState, Axis_GetLastState]
    simp
  · rw [CheckButton_GetLastState]
    simp
  · rw [CheckButton_GetLastState, Axis_GetLastState]

/-- Claim C6, witness for the in-range touch conjunct at slot 1. -/
theorem C6_witness :
    ((0 : Int) ≤ 1 ∧ (1 : Int) < 2) ∧
    (gcConn.SetTouchpadState 1 true (1 / 4) (1 / 4) 9).map GameController.GetLastState =
      some { gcConn.GetLastState with
             time := 9
             touchpad := fun j =>
               if j = (1 : Int).toNat then
                 ⟨true, u16cast ((1 / 4 : ℚ) * 1920), u16cast ((1 / 4 : ℚ) * 941)⟩
               else (gcConn.GetLastState).touchpad j } :=
  ⟨⟨by decide, by decide⟩,
   (C6_copy_forward gcConn 0 0 0 true Input.Axis.LeftX 0 1 true (1 / 4) (1 / 4)
      9 0).2.2.1 (by decide) (by decide)⟩

/-- Claim C7: writing a positive value to the left (resp. right) trigger channel
sets digital bit 8 (`L2`) (resp. bit 9, `R2`) in the newly pushed sample;
writing a value `≤ 0` clears it; and every other button bit is unchanged by
the call (given the `u32` range invariant on the button field). -/
theorem C7_trigger_button (gc : GameController) (id : Int) (value : Int)
    (now : Nat) (hbs : (gc.GetLastState).buttonsState < U32) :
    ((0 < value →
       ((gc.Axis id Input.Axis.TriggerLeft value now).GetLastState).buttonsState.testBit 8
         = true) ∧
     (value ≤ 0 →
       ((gc.Axis id Input.Axis.TriggerLeft value now).GetLastState).buttonsState.testBit 8
         = false) ∧
     (∀ k, k ≠ 8 →
       ((gc.Axis id Input.Axis.TriggerLeft value now).GetLastState).buttonsState.testBit k
         = (gc.GetLastState).buttonsState.testBit k)) ∧
    ((0 < value →
       ((gc.Axis id Input.Axis.TriggerRight value now).GetLastState).buttonsState.testBit 9
         = true) ∧
     (value ≤ 0 →
       ((gc.Axis id Input.Axis.TriggerRight value now).GetLastState).buttonsState.testBit 9
         = false) ∧
     (∀ k, k ≠ 9 →
       ((gc.Axis id Input.Axis.TriggerRight value now).GetLastState).buttonsState.testBit k
         = (gc.GetLastState).buttonsState.testBit k)) := by
  have hTL := Axis_GetLastState gc id Input.Axis.TriggerLeft value now
  have hTR := Axis_GetLastState gc id Input.Axis.TriggerRight value now
  refine ⟨⟨?_, ?_, ?_⟩, ⟨?_, ?_, ?_⟩⟩
  · intro hv
    rw [hTL]
    dsimp only
    rw [if_pos rfl, if_pos hv, L2_eq, Nat.testBit_lor, Nat.testBit_two_pow]
    simp
  · intro hv
    rw [hTL]
    dsimp only
    rw [if_pos rfl, if_neg (by omega), L2_eq, Nat.testBit_land,
      testBit_not32_two_pow 8 8 (by norm_num)]
    simp
  · intro k hk
    rw [hTL]
    dsimp only
    rw [if_pos rfl]
    by_cases hv : 0 < value
    · rw [if_pos hv, L2_eq, Nat.testBit_lor, Nat.testBit_two_pow]
      simp [Ne.symm hk]
    · rw [if_neg hv, L2_eq, Nat.testBit_land, testBit_not32_two_pow 8 k (by norm_num)]
      rcases Nat.lt_or_ge k 32 with hk32 | hk32
      · simp [hk32, hk]
      · rw [testBit_high_of_lt_u32 _ k hbs hk32]
        simp [Nat.not_lt.mpr hk32]
  · intro hv
    rw [hTR]
    dsimp only
    rw [if_neg (by decide), if_pos rfl, if_pos hv, R2_eq, Nat.testBit_lor,
      Nat.testBit_two_pow]
    simp
  · intro hv
    rw [hTR]
    dsimp only
    rw [if_neg (by decide), if_pos rfl, if_neg (by omega), R2_eq, Nat.testBit_land,
      testBit_not32_two_pow 9 9 (by norm_num)]
    simp
  · intro k hk
    rw [hTR]
    dsimp only
    rw [if_neg (by decide), if_pos rfl]
    by_cases hv : 0 < value
    · rw [if_pos hv, R2_eq, Nat.testBit_lor, Nat.testBit_two_pow]
      simp [Ne.symm hk]
    · rw [if_neg hv, R2_eq, Nat.testBit_land, testBit_not32_two_pow 9 k (by norm_num)]
      rcases Nat.lt_or_ge k 32 with hk32 | hk32
      · simp [hk32, hk]
      · rw [testBit_high_of_lt_u32 _ k hbs hk32]
        simp [Nat.not_lt.mpr hk32]

/-- Claim C7, witness: on the fresh connected controller, pushing left-trigger
value 1 sets bit 8. -/
theorem C7_witness :
    ((gcConn.GetLastState).buttonsState < U32 ∧ (0 : Int) < 1) ∧
    ((gcConn.Axis 0 Input.Axis.TriggerLeft 1 3).GetLastState).buttonsState.testBit 8
      = true :=
  ⟨⟨by decide, by decide⟩,
   (C7_trigger_button gcConn 0 1 3 (by decide)).1.1 (by decide)⟩

/-- Claim C8 (code bug): in the lock-event model of the source, every mutator
and reader that touches the ring/cached-sample/connection fields performs all
its accesses under `m_mutex` — but `Poll` takes no lock at all, so its
accesses (and its `AddState` pushes) happen at lock depth 0, violating the
claimed discipline. -/
theorem C8_poll_unlocked :
    allAccessesLocked readStateEvents = true ∧
    allAccessesLocked readStatesEvents = true ∧
    allAccessesLocked checkButtonEvents = true ∧
    allAccessesLocked axisEvents = true ∧
    allAccessesLocked setTouchpadEvents = true ∧
    allAccessesLocked pollEvents = false := by
  refine ⟨rfl, rfl, rfl, rfl, rfl, rfl⟩

/-- Claim C9: `ReadStates` changes nothing but the consumption flags (count,
head, the stored samples, the cached sample and the connection data are all
preserved); every push leaves the count positive; and every operation of the
core preserves positivity of the count — so along any operation sequence the
count never returns to zero after the first push, and the `count == 0`
branches are reachable only before it. -/
theorem C9_frame :
    (∀ (gc : GameController) (maxOut : Int),
      (gc.ReadStates maxOut).gc =
        { gc with m_private := (gc.ReadStates maxOut).gc.m_private }) ∧
    (∀ (gc : GameController) (s : State), 0 < (gc.AddState s).m_states_num) ∧
    (∀ (op : Op) (gc : GameController),
      0 < gc.m_states_num → 0 < (op.step gc).m_states_num) ∧
    (∀ (ops : List Op) (gc : GameController), 0 < gc.m_states_num →
      0 < (ops.foldl (fun g op => op.step g) gc).m_states_num) := by
  refine ⟨ReadStates_gc_frame, AddState_m_states_num_pos, step_num_pos, ?_⟩
  intro ops
  induction ops with
  | nil => intro gc h; simpa using h
  | cons op rest ih => intro gc h; exact ih _ (step_num_pos op gc h)

/-- Claim C9, witness: after the first push, a heartbeat tick followed by a
drain still leaves the count positive. -/
theorem C9_witness :
    0 < gcPushed.m_states_num ∧
    0 < ([Op.poll 0, Op.readStates 3].foldl
          (fun g op => op.step g) gcPushed).m_states_num :=
  ⟨by decide,
   C9_frame.2.2.2 [Op.poll 0, Op.readStates 3] gcPushed (by decide)⟩

/-- Claim C10: the cached sample `m_last_state` starts as the neutral default,
is overwritten by every `AddState` with the pushed sample, and the invariant
"whenever the ring is non-empty, the ring's newest sample equals
`m_last_state`" holds initially and is preserved by every operation; under it,
`ReadState` (readLatest) reports exactly `m_last_state` without needing the
ring. -/
theorem C10_last_state_inv :
    GameController.init.m_last_state = State.default ∧
    (∀ (gc : GameController) (s : State), (gc.AddState s).m_last_state = s) ∧
    LastInv GameController.init ∧
    (∀ (op : Op) (gc : GameController), LastInv gc → LastInv (op.step gc)) ∧
    (∀ gc : GameController, LastInv gc →
      gc.ReadState = ⟨gc.m_last_state, gc.m_connected, gc.m_connected_count⟩) := by
  refine ⟨rfl, AddState_m_last_state, ?_, LastInv_step, ?_⟩
  · intro h
    simp [GameController.init] at h
  · intro gc h
    unfold GameController.ReadState
    rcases Nat.eq_zero_or_pos gc.m_states_num with h0 | hpos
    · unfold GameController.GetLastState
      rw [if_pos h0]
    · rw [h hpos]

/-- Claim C10, witness: the invariant holds at the concrete state `gcPushed`,
and `ReadState` there reports the cached sample. -/
theorem C10_witness :
    LastInv gcPushed ∧
    gcPushed.ReadState =
      ⟨gcPushed.m_last_state, gcPushed.m_connected, gcPushed.m_connected_count⟩ :=
  ⟨fun _ => rfl, C10_last_state_inv.2.2.2.2 gcPushed (fun _ => rfl)⟩

end Input
